import Mathlib

/-!
# Gitee client (pkg/tool/gitee/repositories.go)

A shallow embedding of the request-building code of the Gitee client.  Every
operation of the source builds one request (either for the hand-written HTTP
client or for the generated go-gitee sub-API), sends it, and hands back the
result or the error.  The embedding keeps the two halves apart: for an
operation `Op` the definition `Op_request` / `Op_call` is the request the source
builds, and `Op` itself runs that request on a transport given as a parameter.
-/

namespace Gitee

/-! ## Go primitives used by the source -/

/-- Go conversion `int32(x)` of a wider signed integer: the low 32 bits of `x`,
read in two's complement. -/
def toInt32 (x : Int) : Int :=
  let m := x % 4294967296
  if m < 2147483648 then m else m - 4294967296

/-- Range of Go's `int` on 64-bit platforms and of `int64`. -/
def isInt64 (x : Int) : Prop :=
  -9223372036854775808 ≤ x ∧ x < 9223372036854775808

instance (x : Int) : Decidable (isInt64 x) := by
  unfold isInt64; infer_instance

/-- Range of Go's `int32`. -/
def isInt32 (x : Int) : Prop :=
  -2147483648 ≤ x ∧ x < 2147483648

instance (x : Int) : Decidable (isInt32 x) := by
  unfold isInt32; infer_instance

/-- The `%s` fragment of Go's `fmt.Sprintf`, on character lists: each `%s`
consumes the next operand and renders it verbatim; a `%s` with no operand left
renders Go's `%!s(MISSING)`; every other character is copied. -/
def sprintfChars : List Char → List String → List Char
  | [], _ => []
  | '%' :: 's' :: rest, a :: args => a.data ++ sprintfChars rest args
  | '%' :: 's' :: rest, [] => "%!s(MISSING)".data ++ sprintfChars rest []
  | c :: rest, args => c :: sprintfChars rest args

/-- Go `fmt.Sprintf(format, args...)` for formats whose only verb is `%s`. -/
def Sprintf (format : String) (args : List String) : String :=
  String.mk (sprintfChars format.data args)

/-- The ASCII digit for `d < 10`. -/
def digitChar (d : Nat) : Char := Char.ofNat (48 + d)

/-- Decimal digits of a natural number, most significant first; `0` is `"0"`
(Go `strconv.FormatUint(n, 10)`). -/
def formatUint (n : Nat) : List Char :=
  if n < 10 then [digitChar n] else formatUint (n / 10) ++ [digitChar (n % 10)]
decreasing_by omega

/-- Go `strconv.Itoa(i)`: base-10 text of `i`, with a leading `-` for negative
values. -/
def Itoa (i : Int) : String :=
  if i < 0 then String.mk ('-' :: formatUint i.natAbs) else String.mk (formatUint i.natAbs)

/-- One step of reading a decimal numeral left to right: an ASCII digit extends
the value read so far, any other character makes the reading fail. -/
def digitStep (acc : Option Nat) (c : Char) : Option Nat :=
  acc.bind (fun a => if c.isDigit then some (a * 10 + (c.toNat - 48)) else none)

/-- Reading an unsigned decimal numeral: every character must be an ASCII
digit and at least one must be present. -/
def parseUint (cs : List Char) : Option Nat :=
  if cs.isEmpty then none else cs.foldl digitStep (some 0)

/-- Reading a signed decimal numeral (Go `strconv.Atoi` without the range
check): an optional sign followed by an unsigned numeral. -/
def Atoi (s : String) : Option Int :=
  match s.data with
  | '-' :: rest => (parseUint rest).map (fun n => -(Int.ofNat n))
  | '+' :: rest => (parseUint rest).map (fun n => Int.ofNat n)
  | cs => (parseUint cs).map (fun n => Int.ofNat n)

/-- Go `map[string]string`, kept as an association list with distinct keys in
order of first insertion. -/
abbrev StrMap := List (String × String)

/-- Go `m[k] = v`: overwrite the entry for `k` if there is one, otherwise add it. -/
def StrMap.set (m : StrMap) (k v : String) : StrMap :=
  if m.any (fun p => p.1 == k) then m.map (fun p => if p.1 == k then (k, v) else p)
  else m ++ [(k, v)]

/-- Go `v, ok := m[k]`. -/
def StrMap.get (m : StrMap) (k : String) : Option String :=
  (m.find? (fun p => p.1 == k)).map (fun p => p.2)

/-! ## Data model -/

/-- The `Project` record of the source. -/
structure Project where
  ID : Int
  Name : String
  DefaultBranch : String
deriving DecidableEq, Repr

/-- The fields of `git.Hook` the source reads (`hook.URL`, `hook.Secret`); the
operations take a non-nil pointer to it. -/
structure GitHook where
  URL : String
  Secret : String
deriving DecidableEq, Repr

/-- A JSON scalar as it appears in a marshalled request body: a Go `string`
field marshals to a JSON string, a Go `bool` field to a JSON boolean. -/
inductive JVal where
  | str (s : String)
  | bool (b : Bool)
deriving DecidableEq, Repr

/-- A marshalled JSON object: the struct's fields in declaration order, each
under its `json` tag. -/
abbrev JObject := List (String × JVal)

/-- The value of field `k` of a JSON object, if the object has that field. -/
def JObject.field (o : JObject) (k : String) : Option JVal :=
  (o.find? (fun p => p.1 == k)).map (fun p => p.2)

/-- HTTP verbs the source uses (`httpClient.Get`, `httpClient.Post`). -/
inductive Method where
  | GET
  | POST
deriving DecidableEq, Repr

/-- Modelled from the spec: the package `pkg/tool/httpclient` (the transport
providing GET and POST with host, query, body and result-binding options) is
not part of the source file.  A request is what the source hands to it: the
host given to `httpclient.SetHostURL`, the verb (`Get` or `Post`), the path,
the query parameters given through `httpclient.SetQueryParams` or
`httpclient.SetQueryParam`, and the JSON body given through `httpclient.SetBody`
(absent when `SetBody` is not used).  The transport itself is a parameter of
every operation: a function from the request to the final content of the
variable bound with `httpclient.SetResult` and the error. -/
structure Request where
  host : String
  method : Method
  url : String
  query : StrMap
  body : Option JObject
deriving DecidableEq, Repr

/-- Go `optional.String`, `optional.Bool`, `optional.Int32` of
github.com/antihax/optional: `optional.NewT v` is a set option carrying `v`
(`some v`), the zero value of the struct is the unset option (`none`). -/
abbrev Optional (α : Type) := Option α

/-- Type `gitee.PatchV5ReposOwnerRepoHooksIdOpts` of the generated go-gitee client. -/
structure PatchV5ReposOwnerRepoHooksIdOpts where
  AccessToken : Optional String := none
  Password : Optional String := none
  PushEvents : Optional Bool := none
  TagPushEvents : Optional Bool := none
  IssuesEvents : Optional Bool := none
  NoteEvents : Optional Bool := none
  MergeRequestsEvents : Optional Bool := none
deriving DecidableEq, Repr

/-- Type `gitee.GetV5ReposOwnerRepoGitTreesShaOpts` of the generated go-gitee client. -/
structure GetV5ReposOwnerRepoGitTreesShaOpts where
  AccessToken : Optional String := none
  Recursive : Optional Int := none
deriving DecidableEq, Repr

/-- Type `gitee.GetV5ReposOwnerRepoGitBlobsShaOpts` of the generated go-gitee client. -/
structure GetV5ReposOwnerRepoGitBlobsShaOpts where
  AccessToken : Optional String := none
deriving DecidableEq, Repr

/-- Arguments of `WebhooksApi.DeleteV5ReposOwnerRepoHooksId` after the context:
owner, repo, the `int32` id; the source passes `nil` for the options pointer. -/
structure DeleteHookCall where
  owner : String
  repo : String
  id : Int
  optsIsNil : Bool
deriving DecidableEq, Repr

/-- Arguments of `WebhooksApi.PatchV5ReposOwnerRepoHooksId` after the context:
owner, repo, the `int32` id, the url and the options. -/
structure PatchHookCall where
  owner : String
  repo : String
  id : Int
  url : String
  opts : PatchV5ReposOwnerRepoHooksIdOpts
deriving DecidableEq, Repr

/-- Arguments of `GitDataApi.GetV5ReposOwnerRepoGitTreesSha` after the context. -/
structure GetTreeCall where
  owner : String
  repo : String
  sha : String
  opts : GetV5ReposOwnerRepoGitTreesShaOpts
deriving DecidableEq, Repr

/-- Arguments of `GitDataApi.GetV5ReposOwnerRepoGitBlobsSha` after the context. -/
structure GetBlobCall where
  owner : String
  repo : String
  sha : String
  opts : GetV5ReposOwnerRepoGitBlobsShaOpts
deriving DecidableEq, Repr

/-- Arguments of `WebhooksApi.GetV5ReposOwnerRepoHooks` after the context; the
options pointer of the caller is passed on as it is. -/
structure ListHooksCall (O : Type) where
  owner : String
  repo : String
  opts : O

/-! ## The operations of the source -/

/-- The API host, `GiteeHOSTURL` of the source. -/
def GiteeHOSTURL : String := "https://gitee.com/api"

/-- Request built by `ListRepositoriesForAuthenticatedUser`. -/
def ListRepositoriesForAuthenticatedUser_request
    (accessToken keyword : String) (page perPage : Int) : Request :=
  let url := "/v5/user/repos"
  let queryParams : StrMap := []
  let queryParams := queryParams.set "access_token" accessToken
  let queryParams := queryParams.set "visibility" "all"
  let queryParams := queryParams.set "affiliation" "owner"
  let queryParams := queryParams.set "q" keyword
  let queryParams := queryParams.set "page" (Itoa page)
  let queryParams := queryParams.set "per_page" (Itoa perPage)
  { host := GiteeHOSTURL, method := Method.GET, url := url, query := queryParams, body := none }

/-- Operation `Client.ListRepositoriesForAuthenticatedUser`; the transport yields the
final content of `projects` (`none` for a nil slice) and the error. -/
def ListRepositoriesForAuthenticatedUser {E : Type}
    (httpClient : Request → Option (List Project) × Option E)
    (accessToken keyword : String) (page perPage : Int) : Option (List Project) × Option E :=
  match httpClient (ListRepositoriesForAuthenticatedUser_request accessToken keyword page perPage) with
  | (_, some err) => (none, some err)
  | (projects, none) => (projects, none)

/-- Request built by `ListRepositoriesForOrg`. -/
def ListRepositoriesForOrg_request
    (accessToken org : String) (page perPage : Int) : Request :=
  let url := Sprintf "/v5/orgs/%s/repos" [org]
  let queryParams : StrMap := []
  let queryParams := queryParams.set "access_token" accessToken
  let queryParams := queryParams.set "type" "all"
  let queryParams := queryParams.set "page" (Itoa page)
  let queryParams := queryParams.set "per_page" (Itoa perPage)
  { host := GiteeHOSTURL, method := Method.GET, url := url, query := queryParams, body := none }

/-- Operation `Client.ListRepositoriesForOrg`. -/
def ListRepositoriesForOrg {E : Type}
    (httpClient : Request → Option (List Project) × Option E)
    (accessToken org : String) (page perPage : Int) : Option (List Project) × Option E :=
  match httpClient (ListRepositoriesForOrg_request accessToken org page perPage) with
  | (_, some err) => (none, some err)
  | (projects, none) => (projects, none)

/-- Operation `Client.ListHooks`: the generated call returns the hooks (`none` for a nil
slice) and the error. -/
def ListHooks {Ctx O H E : Type}
    (GetV5ReposOwnerRepoHooks : Ctx → ListHooksCall O → Option (List H) × Option E)
    (ctx : Ctx) (owner repo : String) (opts : O) : Option (List H) × Option E :=
  match GetV5ReposOwnerRepoHooks ctx { owner := owner, repo := repo, opts := opts } with
  | (_, some err) => (none, some err)
  | (hs, none) => (hs, none)

/-- Arguments `DeleteHook` passes to the generated webhook sub-API. -/
def DeleteHook_call (owner repo : String) (id : Int) : DeleteHookCall :=
  { owner := owner, repo := repo, id := toInt32 id, optsIsNil := true }

/-- Operation `Client.DeleteHook`: returns the error of the generated call, or nil. -/
def DeleteHook {Ctx E : Type}
    (DeleteV5ReposOwnerRepoHooksId : Ctx → DeleteHookCall → Option E)
    (ctx : Ctx) (owner repo : String) (id : Int) : Option E :=
  match DeleteV5ReposOwnerRepoHooksId ctx (DeleteHook_call owner repo id) with
  | some err => some err
  | none => none

/-- The anonymous struct `CreateHook` gives to `httpclient.SetBody`, marshalled. -/
def CreateHook_body (accessToken : String) (hook : GitHook) : JObject :=
  [ ("access_token", JVal.str accessToken),
    ("url", JVal.str hook.URL),
    ("password", JVal.str hook.Secret),
    ("push_events", JVal.str "true"),
    ("tag_push_events", JVal.str "true"),
    ("merge_requests_events", JVal.str "true") ]

/-- Request built by `CreateHook`. -/
def CreateHook_request (accessToken owner repo : String) (hook : GitHook) : Request :=
  let url := Sprintf "/v5/repos/%s/%s/hooks" [owner, repo]
  { host := GiteeHOSTURL, method := Method.POST, url := url, query := [],
    body := some (CreateHook_body accessToken hook) }

/-- Operation `Client.CreateHook`; the result is a pointer (`none` for nil). -/
def CreateHook {Hook E : Type}
    (httpClient : Request → Option Hook × Option E)
    (accessToken owner repo : String) (hook : GitHook) : Option Hook × Option E :=
  match httpClient (CreateHook_request accessToken owner repo hook) with
  | (_, some err) => (none, some err)
  | (hookInfo, none) => (hookInfo, none)

/-- Arguments `UpdateHook` passes to the generated webhook sub-API. -/
def UpdateHook_call (owner repo : String) (id : Int) (hook : GitHook) : PatchHookCall :=
  { owner := owner, repo := repo, id := toInt32 id, url := hook.URL,
    opts := { Password := some hook.Secret, PushEvents := some true,
              TagPushEvents := some true, MergeRequestsEvents := some true } }

/-- Operation `Client.UpdateHook`; `zeroHook` is `gitee.Hook{}`. -/
def UpdateHook {Ctx H E : Type} (zeroHook : H)
    (PatchV5ReposOwnerRepoHooksId : Ctx → PatchHookCall → H × Option E)
    (ctx : Ctx) (owner repo : String) (id : Int) (hook : GitHook) : H × Option E :=
  match PatchV5ReposOwnerRepoHooksId ctx (UpdateHook_call owner repo id hook) with
  | (_, some err) => (zeroHook, some err)
  | (resp, none) => (resp, none)

/-- Arguments `GetContents` passes to the generated git-data sub-API. -/
def GetContents_call (owner repo sha : String) : GetBlobCall :=
  { owner := owner, repo := repo, sha := sha, opts := {} }

/-- Operation `Client.GetContents`; `zeroBlob` is `gitee.Blob{}`. -/
def GetContents {Ctx B E : Type} (zeroBlob : B)
    (GetV5ReposOwnerRepoGitBlobsSha : Ctx → GetBlobCall → B × Option E)
    (ctx : Ctx) (owner repo sha : String) : B × Option E :=
  match GetV5ReposOwnerRepoGitBlobsSha ctx (GetContents_call owner repo sha) with
  | (_, some err) => (zeroBlob, some err)
  | (fileContent, none) => (fileContent, none)

/-- Arguments `GetTrees` passes to the generated git-data sub-API. -/
def GetTrees_call (owner repo sha : String) (level : Int) : GetTreeCall :=
  { owner := owner, repo := repo, sha := sha, opts := { Recursive := some (toInt32 level) } }

/-- Operation `Client.GetTrees`; `zeroTree` is `gitee.Tree{}`. -/
def GetTrees {Ctx T E : Type} (zeroTree : T)
    (GetV5ReposOwnerRepoGitTreesSha : Ctx → GetTreeCall → T × Option E)
    (ctx : Ctx) (owner repo sha : String) (level : Int) : T × Option E :=
  match GetV5ReposOwnerRepoGitTreesSha ctx (GetTrees_call owner repo sha level) with
  | (_, some err) => (zeroTree, some err)
  | (tree, none) => (tree, none)

/-- Request built by `GetSingleCommitOfProject`. -/
def GetSingleCommitOfProject_request (accessToken owner repo commitSha : String) : Request :=
  let url := Sprintf "/v5/repos/%s/%s/commits/%s" [owner, repo, commitSha]
  { host := GiteeHOSTURL, method := Method.GET, url := url,
    query := StrMap.set [] "access_token" accessToken, body := none }

/-- Operation `Client.GetSingleCommitOfProject`; the context argument is not used by the
source. -/
def GetSingleCommitOfProject {Ctx RepoCommit E : Type}
    (httpClient : Request → Option RepoCommit × Option E)
    (_ctx : Ctx) (accessToken owner repo commitSha : String) : Option RepoCommit × Option E :=
  match httpClient (GetSingleCommitOfProject_request accessToken owner repo commitSha) with
  | (_, some err) => (none, some err)
  | (commit, none) => (commit, none)

/-- Request built by `RefreshAccessToken`. -/
def RefreshAccessToken_request (refreshToken : String) : Request :=
  let url := "/oauth/token"
  let queryParams : StrMap := []
  let queryParams := queryParams.set "grant_type" "refresh_token"
  let queryParams := queryParams.set "refresh_token" refreshToken
  { host := "https://gitee.com", method := Method.POST, url := url, query := queryParams,
    body := none }

/-- Operation `RefreshAccessToken`. -/
def RefreshAccessToken {AccessToken E : Type}
    (httpClient : Request → Option AccessToken × Option E)
    (refreshToken : String) : Option AccessToken × Option E :=
  match httpClient (RefreshAccessToken_request refreshToken) with
  | (_, some err) => (none, some err)
  | (accessToken, none) => (accessToken, none)

/-- Request built by `GetReposOwnerRepoCompareBaseHead`. -/
def GetReposOwnerRepoCompareBaseHead_request
    (accessToken owner repo base head : String) : Request :=
  let url := Sprintf "/v5/repos/%s/%s/compare/%s...%s" [owner, repo, base, head]
  { host := GiteeHOSTURL, method := Method.GET, url := url,
    query := StrMap.set [] "access_token" accessToken, body := none }

/-- Operation `Client.GetReposOwnerRepoCompareBaseHead`. -/
def GetReposOwnerRepoCompareBaseHead {Compare E : Type}
    (httpClient : Request → Option Compare × Option E)
    (accessToken owner repo base head : String) : Option Compare × Option E :=
  match httpClient (GetReposOwnerRepoCompareBaseHead_request accessToken owner repo base head) with
  | (_, some err) => (none, some err)
  | (compare, none) => (compare, none)

/-- An operation hands back the outcome of its underlying call: when the call
returned the error `e` (whatever it returned or wrote as its result), the
operation returns the zero result together with that same `e`; when the call
returned no error, the operation returns no error and the call's result. -/
abbrev returnsErrorOf {R E : Type} (zero : R) (call out : R × Option E) : Prop :=
  (∀ e, call.2 = some e → out = (zero, some e)) ∧ (call.2 = none → out = (call.1, none))

/-! ## Lemmas on the Go primitives -/

theorem digitChar_isDigit (d : Nat) (h : d < 10) : (digitChar d).isDigit = true := by
  interval_cases d <;> decide

theorem digitChar_toNat (d : Nat) (h : d < 10) : (digitChar d).toNat - 48 = d := by
  interval_cases d <;> decide

theorem digitChar_ne_minus (d : Nat) (h : d < 10) : digitChar d ≠ '-' := by
  interval_cases d <;> decide

theorem digitChar_ne_plus (d : Nat) (h : d < 10) : digitChar d ≠ '+' := by
  interval_cases d <;> decide

theorem foldl_formatUint (n : Nat) (a : Nat) :
    (formatUint n).foldl digitStep (some a) = some (a * 10 ^ (formatUint n).length + n) := by
  induction n using Nat.strong_induction_on generalizing a with
  | _ n ih =>
    rw [formatUint]
    split
    · next h =>
      simp [digitStep, digitChar_isDigit n h, digitChar_toNat n h]
    · next h =>
      have hlt : n / 10 < n := by omega
      rw [List.foldl_append, ih (n / 10) hlt a]
      have hd : n % 10 < 10 := by omega
      simp [digitStep, digitChar_isDigit _ hd, digitChar_toNat _ hd, pow_succ]
      ring_nf
      omega

theorem formatUint_head (n : Nat) : ∃ d rest, d < 10 ∧ formatUint n = digitChar d :: rest := by
  induction n using Nat.strong_induction_on with
  | _ n ih =>
    rw [formatUint]
    split
    · next h => exact ⟨n, [], h, rfl⟩
    · next h =>
      obtain ⟨d, rest, hd, he⟩ := ih (n / 10) (by omega)
      exact ⟨d, rest ++ [digitChar (n % 10)], hd, by rw [he]; rfl⟩

theorem parseUint_formatUint (n : Nat) : parseUint (formatUint n) = some n := by
  obtain ⟨d, rest, _, he⟩ := formatUint_head n
  have h2 := foldl_formatUint n 0
  unfold parseUint
  rw [h2, he]
  simp

theorem Atoi_Itoa (i : Int) : Atoi (Itoa i) = some i := by
  by_cases h : i < 0
  · have hi : -(Int.ofNat i.natAbs) = i := by
      show -((i.natAbs : Nat) : Int) = i
      omega
    simp only [Itoa, h, if_true, Atoi, parseUint_formatUint, Option.map_some', hi]
  · obtain ⟨d, rest, hd, he⟩ := formatUint_head i.natAbs
    have h1 := digitChar_ne_minus d hd
    have h2 := digitChar_ne_plus d hd
    have hp := parseUint_formatUint i.natAbs
    have hi : Int.ofNat i.natAbs = i := by
      show ((i.natAbs : Nat) : Int) = i
      omega
    simp only [Itoa, h, if_false, Atoi]
    rw [he] at hp ⊢
    split
    · next heq => exact absurd (List.cons.inj heq).1 h1
    · next heq => exact absurd (List.cons.inj heq).1 h2
    · next heq =>
      rw [hp]; simp only [Option.map_some', hi]

theorem toInt32_isInt32 (x : Int) : isInt32 (toInt32 x) := by
  unfold isInt32 toInt32
  constructor <;> (simp only []; split <;> omega)

theorem toInt32_congr (x : Int) : (toInt32 x - x) % 4294967296 = 0 := by
  unfold toInt32
  simp only []
  split <;> omega

theorem toInt32_eq_self_iff (x : Int) : toInt32 x = x ↔ isInt32 x := by
  unfold isInt32 toInt32
  simp only []
  split <;> omega

theorem toInt32_eq_of_congr (x y : Int) (h : (x - y) % 4294967296 = 0) :
    toInt32 x = toInt32 y := by
  unfold toInt32
  have : x % 4294967296 = y % 4294967296 := by omega
  simp only [this]

theorem toInt32_eq_zero_iff (x : Int) : toInt32 x = 0 ↔ x % 4294967296 = 0 := by
  unfold toInt32
  simp only []
  split <;> omega

theorem Sprintf_compare (owner repo base head : String) :
    Sprintf "/v5/repos/%s/%s/compare/%s...%s" [owner, repo, base, head]
      = "/v5/repos/" ++ owner ++ "/" ++ repo ++ "/compare/" ++ base ++ "..." ++ head := by
  apply String.ext
  simp [Sprintf, sprintfChars, String.data_append]

theorem Sprintf_hooks (owner repo : String) :
    Sprintf "/v5/repos/%s/%s/hooks" [owner, repo]
      = "/v5/repos/" ++ owner ++ "/" ++ repo ++ "/hooks" := by
  apply String.ext
  simp [Sprintf, sprintfChars, String.data_append]

theorem Sprintf_orgs (org : String) :
    Sprintf "/v5/orgs/%s/repos" [org] = "/v5/orgs/" ++ org ++ "/repos" := by
  apply String.ext
  simp [Sprintf, sprintfChars, String.data_append]

theorem StrMap.get_nil (k : String) : StrMap.get [] k = none := rfl

theorem StrMap.get_cons (k1 v : String) (m : StrMap) (k : String) :
    StrMap.get ((k1, v) :: m) k = if k = k1 then some v else StrMap.get m k := by
  unfold StrMap.get
  by_cases h : k = k1
  · subst h; simp [List.find?_cons]
  · have h2 : (k1 == k) = false := by simpa using Ne.symm h
    simp [List.find?_cons, h, h2]

theorem JObject.field_nil (k : String) : JObject.field [] k = none := rfl

theorem JObject.field_cons (k1 : String) (v : JVal) (o : JObject) (k : String) :
    JObject.field ((k1, v) :: o) k = if k = k1 then some v else JObject.field o k := by
  unfold JObject.field
  by_cases h : k = k1
  · subst h; simp [List.find?_cons]
  · have h2 : (k1 == k) = false := by simpa using Ne.symm h
    simp [List.find?_cons, h, h2]

theorem user_query_eq (accessToken keyword : String) (page perPage : Int) :
    (ListRepositoriesForAuthenticatedUser_request accessToken keyword page perPage).query =
      [("access_token", accessToken), ("visibility", "all"), ("affiliation", "owner"),
       ("q", keyword), ("page", Itoa page), ("per_page", Itoa perPage)] := by
  simp [ListRepositoriesForAuthenticatedUser_request, StrMap.set]

theorem org_query_eq (accessToken org : String) (page perPage : Int) :
    (ListRepositoriesForOrg_request accessToken org page perPage).query =
      [("access_token", accessToken), ("type", "all"), ("page", Itoa page),
       ("per_page", Itoa perPage)] := by
  simp [ListRepositoriesForOrg_request, StrMap.set]

theorem refresh_query_eq (refreshToken : String) :
    (RefreshAccessToken_request refreshToken).query =
      [("grant_type", "refresh_token"), ("refresh_token", refreshToken)] := by
  simp [RefreshAccessToken_request, StrMap.set]

theorem Sprintf_commits (owner repo commitSha : String) :
    Sprintf "/v5/repos/%s/%s/commits/%s" [owner, repo, commitSha]
      = "/v5/repos/" ++ owner ++ "/" ++ repo ++ "/commits/" ++ commitSha := by
  apply String.ext
  simp [Sprintf, sprintfChars, String.data_append]

theorem Itoa_zero : Itoa 0 = "0" := by
  simp [Itoa, formatUint, digitChar]

theorem Itoa_twenty : Itoa 20 = "20" := by
  simp [Itoa, formatUint, digitChar]

theorem Itoa_neg_three : Itoa (-3) = "-3" := by
  simp [Itoa, formatUint, digitChar]

/-! ## Webhook creation and update -/

/-- C1: the body `CreateHook` posts to `/v5/repos/{owner}/{repo}/hooks` carries
`push_events`, `tag_push_events` and `merge_requests_events` as the JSON string
`"true"` (not the JSON boolean), `url` and `password` taken from the hook spec,
no `issues_events` and no `note_events` field; the three flags are the same for
every hook spec. -/
theorem CreateHook_body_flags (accessToken owner repo : String) (hook : GitHook) :
    (CreateHook (fun req => ((none : Option Unit), some req)) accessToken owner repo hook).2
        = some (CreateHook_request accessToken owner repo hook)
    ∧ (CreateHook_request accessToken owner repo hook).method = Method.POST
    ∧ (CreateHook_request accessToken owner repo hook).url
        = "/v5/repos/" ++ owner ++ "/" ++ repo ++ "/hooks"
    ∧ (CreateHook_request accessToken owner repo hook).body
        = some (CreateHook_body accessToken hook)
    ∧ (CreateHook_body accessToken hook).field "push_events" = some (JVal.str "true")
    ∧ (CreateHook_body accessToken hook).field "tag_push_events" = some (JVal.str "true")
    ∧ (CreateHook_body accessToken hook).field "merge_requests_events" = some (JVal.str "true")
    ∧ JVal.str "true" ≠ JVal.bool true
    ∧ (CreateHook_body accessToken hook).field "url" = some (JVal.str hook.URL)
    ∧ (CreateHook_body accessToken hook).field "password" = some (JVal.str hook.Secret)
    ∧ (CreateHook_body accessToken hook).field "issues_events" = none
    ∧ (CreateHook_body accessToken hook).field "note_events" = none
    ∧ (∀ other : GitHook,
        (CreateHook_body accessToken other).field "push_events"
            = (CreateHook_body accessToken hook).field "push_events"
        ∧ (CreateHook_body accessToken other).field "tag_push_events"
            = (CreateHook_body accessToken hook).field "tag_push_events"
        ∧ (CreateHook_body accessToken other).field "merge_requests_events"
            = (CreateHook_body accessToken hook).field "merge_requests_events") := by
  refine ⟨rfl, rfl, ?_, rfl, ?_, ?_, ?_, ?_, ?_, ?_, ?_, ?_, ?_⟩
  · exact Sprintf_hooks owner repo
  all_goals first
    | (intro other; simp [CreateHook_body, JObject.field_cons, JObject.field_nil])
    | simp [CreateHook_body, JObject.field_cons, JObject.field_nil]

/-- C2: the call `UpdateHook` makes on the generated webhook sub-API sets
`PushEvents`, `TagPushEvents` and `MergeRequestsEvents` to the boolean `true`,
sets `Password` to the secret of the hook spec, passes the URL of the hook spec
as the url argument, and leaves `IssuesEvents` and `NoteEvents` unset; the
flags `CreateHook` sends are JSON strings instead. -/
theorem UpdateHook_call_options (owner repo : String) (id : Int) (hook : GitHook) :
    (UpdateHook (UpdateHook_call "" "" 0 (GitHook.mk "" ""))
        (fun (_ : Unit) c => (c, (none : Option Unit))) () owner repo id hook).1
        = UpdateHook_call owner repo id hook
    ∧ (UpdateHook_call owner repo id hook).opts.PushEvents = some true
    ∧ (UpdateHook_call owner repo id hook).opts.TagPushEvents = some true
    ∧ (UpdateHook_call owner repo id hook).opts.MergeRequestsEvents = some true
    ∧ (UpdateHook_call owner repo id hook).opts.Password = some hook.Secret
    ∧ (UpdateHook_call owner repo id hook).url = hook.URL
    ∧ (UpdateHook_call owner repo id hook).opts.IssuesEvents = none
    ∧ (UpdateHook_call owner repo id hook).opts.NoteEvents = none
    ∧ (UpdateHook_call owner repo id hook).owner = owner
    ∧ (UpdateHook_call owner repo id hook).repo = repo
    ∧ (CreateHook_body "" hook).field "push_events" ≠ some (JVal.bool true)
    ∧ (CreateHook_body "" hook).field "tag_push_events" ≠ some (JVal.bool true)
    ∧ (CreateHook_body "" hook).field "merge_requests_events" ≠ some (JVal.bool true) := by
  refine ⟨rfl, rfl, rfl, rfl, rfl, rfl, rfl, rfl, rfl, rfl, ?_, ?_, ?_⟩ <;>
    simp [CreateHook_body, JObject.field_cons, JObject.field_nil]

/-! ## Paths, hosts and query parameters -/

/-- C3: `GetReposOwnerRepoCompareBaseHead` sends a GET to the API host whose
path is `/v5/repos/` owner `/` repo `/compare/` base `...` head, the separator
between base and head being three dots. -/
theorem compare_path (accessToken owner repo base head : String) :
    (GetReposOwnerRepoCompareBaseHead (fun req => ((none : Option Unit), some req))
        accessToken owner repo base head).2
        = some (GetReposOwnerRepoCompareBaseHead_request accessToken owner repo base head)
    ∧ (GetReposOwnerRepoCompareBaseHead_request accessToken owner repo base head).url
        = "/v5/repos/" ++ owner ++ "/" ++ repo ++ "/compare/" ++ base ++ "..." ++ head
    ∧ "...".data = ['.', '.', '.']
    ∧ (GetReposOwnerRepoCompareBaseHead_request accessToken owner repo base head).method
        = Method.GET
    ∧ (GetReposOwnerRepoCompareBaseHead_request accessToken owner repo base head).host
        = GiteeHOSTURL
    ∧ GiteeHOSTURL = "https://gitee.com/api" :=
  ⟨rfl, Sprintf_compare owner repo base head, rfl, rfl, rfl, rfl⟩

/-- C4: `RefreshAccessToken` sends a POST to host `https://gitee.com`, path
`/oauth/token`, with the query parameters `grant_type = refresh_token` and
`refresh_token = ` the given token and no others; that host is not the API host
`https://gitee.com/api`, which the two listings, `CreateHook`,
`GetSingleCommitOfProject` and `GetReposOwnerRepoCompareBaseHead` all use. -/
theorem RefreshAccessToken_host (refreshToken a b c d : String) (p q : Int) (hook : GitHook) :
    (RefreshAccessToken (fun req => ((none : Option Unit), some req)) refreshToken).2
        = some (RefreshAccessToken_request refreshToken)
    ∧ (RefreshAccessToken_request refreshToken).method = Method.POST
    ∧ (RefreshAccessToken_request refreshToken).host = "https://gitee.com"
    ∧ (RefreshAccessToken_request refreshToken).url = "/oauth/token"
    ∧ (∀ k : String, (RefreshAccessToken_request refreshToken).query.get k =
        if k = "grant_type" then some "refresh_token"
        else if k = "refresh_token" then some refreshToken
        else none)
    ∧ (RefreshAccessToken_request refreshToken).host ≠ GiteeHOSTURL
    ∧ GiteeHOSTURL = "https://gitee.com/api"
    ∧ (ListRepositoriesForAuthenticatedUser_request a b p q).host = GiteeHOSTURL
    ∧ (ListRepositoriesForOrg_request a b p q).host = GiteeHOSTURL
    ∧ (CreateHook_request a b c hook).host = GiteeHOSTURL
    ∧ (GetSingleCommitOfProject_request a b c d).host = GiteeHOSTURL
    ∧ (GetReposOwnerRepoCompareBaseHead_request a b c d refreshToken).host = GiteeHOSTURL := by
  refine ⟨rfl, rfl, rfl, rfl, ?_, ?_, rfl, rfl, rfl, rfl, rfl, rfl⟩
  · intro k
    rw [refresh_query_eq]
    simp only [StrMap.get_cons, StrMap.get_nil]
  · simp [RefreshAccessToken_request, GiteeHOSTURL]

/-- C5 as stated fails for `CreateHook`: its request has no query parameter
`access_token` (the token travels in the body). -/
theorem CreateHook_no_access_token_query :
    ¬ ((CreateHook_request "tok" "owner" "repo" (GitHook.mk "http://cb" "s3cret")).query.get
        "access_token" = some "tok") := by
  simp [CreateHook_request, StrMap.get]

/-- C5 amended: the two listings, `GetSingleCommitOfProject` and
`GetReposOwnerRepoCompareBaseHead` pass the caller's token as the query
parameter `access_token`; `CreateHook` sets no query parameter and passes the
token as the field `access_token` of the JSON body. -/
theorem access_token_placement (accessToken a b c d : String) (p q : Int) (hook : GitHook) :
    (ListRepositoriesForAuthenticatedUser_request accessToken a p q).query.get "access_token"
        = some accessToken
    ∧ (ListRepositoriesForOrg_request accessToken a p q).query.get "access_token"
        = some accessToken
    ∧ (GetSingleCommitOfProject_request accessToken a b c).query.get "access_token"
        = some accessToken
    ∧ (GetReposOwnerRepoCompareBaseHead_request accessToken a b c d).query.get "access_token"
        = some accessToken
    ∧ (CreateHook_request accessToken a b hook).query = []
    ∧ (∃ body, (CreateHook_request accessToken a b hook).body = some body
        ∧ body.field "access_token" = some (JVal.str accessToken)) := by
  refine ⟨?_, ?_, ?_, ?_, rfl, ⟨_, rfl, ?_⟩⟩
  · rw [user_query_eq]; simp [StrMap.get_cons]
  · rw [org_query_eq]; simp [StrMap.get_cons]
  · simp [GetSingleCommitOfProject_request, StrMap.set, StrMap.get_cons]
  · simp [GetReposOwnerRepoCompareBaseHead_request, StrMap.set, StrMap.get_cons]
  · simp [CreateHook_body, JObject.field_cons]

/-- C7: `ListRepositoriesForAuthenticatedUser` requests `/v5/user/repos` with
the query parameters `access_token`, `visibility = all`, `affiliation = owner`,
`q`, `page`, `per_page` and no others; `ListRepositoriesForOrg` requests
`/v5/orgs/{org}/repos` with `access_token`, `type = all`, `page`, `per_page`
and no others; `page` and `per_page` are the decimal texts of the integers,
which read back as the same integers, for every integer including zero and
negatives. -/
theorem listing_requests_query (accessToken keyword org : String) (page perPage : Int) :
    (ListRepositoriesForAuthenticatedUser (fun req => (none, some req))
        accessToken keyword page perPage).2
        = some (ListRepositoriesForAuthenticatedUser_request accessToken keyword page perPage)
    ∧ (ListRepositoriesForAuthenticatedUser_request accessToken keyword page perPage).url
        = "/v5/user/repos"
    ∧ (ListRepositoriesForAuthenticatedUser_request accessToken keyword page perPage).method
        = Method.GET
    ∧ (∀ k : String,
        (ListRepositoriesForAuthenticatedUser_request accessToken keyword page perPage).query.get k =
          if k = "access_token" then some accessToken
          else if k = "visibility" then some "all"
          else if k = "affiliation" then some "owner"
          else if k = "q" then some keyword
          else if k = "page" then some (Itoa page)
          else if k = "per_page" then some (Itoa perPage)
          else none)
    ∧ (ListRepositoriesForOrg (fun req => (none, some req)) accessToken org page perPage).2
        = some (ListRepositoriesForOrg_request accessToken org page perPage)
    ∧ (ListRepositoriesForOrg_request accessToken org page perPage).url
        = "/v5/orgs/" ++ org ++ "/repos"
    ∧ (ListRepositoriesForOrg_request accessToken org page perPage).method = Method.GET
    ∧ (∀ k : String,
        (ListRepositoriesForOrg_request accessToken org page perPage).query.get k =
          if k = "access_token" then some accessToken
          else if k = "type" then some "all"
          else if k = "page" then some (Itoa page)
          else if k = "per_page" then some (Itoa perPage)
          else none)
    ∧ Atoi (Itoa page) = some page
    ∧ Atoi (Itoa perPage) = some perPage
    ∧ Itoa 0 = "0" ∧ Itoa 20 = "20" ∧ Itoa (-3) = "-3" := by
  refine ⟨rfl, rfl, rfl, ?_, rfl, Sprintf_orgs org, rfl, ?_, Atoi_Itoa page, Atoi_Itoa perPage,
    Itoa_zero, Itoa_twenty, Itoa_neg_three⟩
  · intro k
    rw [user_query_eq]
    simp only [StrMap.get_cons, StrMap.get_nil]
  · intro k
    rw [org_query_eq]
    simp only [StrMap.get_cons, StrMap.get_nil]

theorem returnsErrorOf_intro {R E : Type} (zero : R) (call out : R × Option E)
    (h1 : ∀ r e, call = (r, some e) → out = (zero, some e))
    (h2 : ∀ r, call = (r, none) → out = (r, none)) :
    returnsErrorOf zero call out := by
  obtain ⟨r, err⟩ := call
  cases err with
  | none => exact ⟨fun e h => by simp at h, fun _ => h2 r rfl⟩
  | some e0 =>
    refine ⟨fun e h => ?_, fun h => by simp at h⟩
    simp only [Option.some.injEq] at h
    subst h
    exact h1 r e0 rfl

/-! ## Errors -/

/-- C6: every operation returns the error of its underlying transport or
sub-API call unchanged, together with the nil or zero result, whatever result
the call had produced; and when the call returns no error, the operation
returns no error (and the call's result). -/
theorem operations_return_call_error
    {Ctx O H Hook GH B T RepoCommit AccessToken Compare E : Type}
    (zeroHook : GH) (zeroBlob : B) (zeroTree : T)
    (listClient : Request → Option (List Project) × Option E)
    (hookClient : Request → Option Hook × Option E)
    (commitClient : Request → Option RepoCommit × Option E)
    (tokenClient : Request → Option AccessToken × Option E)
    (compareClient : Request → Option Compare × Option E)
    (GetV5ReposOwnerRepoHooks : Ctx → ListHooksCall O → Option (List H) × Option E)
    (DeleteV5ReposOwnerRepoHooksId : Ctx → DeleteHookCall → Option E)
    (PatchV5ReposOwnerRepoHooksId : Ctx → PatchHookCall → GH × Option E)
    (GetV5ReposOwnerRepoGitBlobsSha : Ctx → GetBlobCall → B × Option E)
    (GetV5ReposOwnerRepoGitTreesSha : Ctx → GetTreeCall → T × Option E)
    (ctx : Ctx) (a b c d e : String) (p q id level : Int) (opts : O) (hook : GitHook) :
    returnsErrorOf none (listClient (ListRepositoriesForAuthenticatedUser_request a b p q))
        (ListRepositoriesForAuthenticatedUser listClient a b p q)
    ∧ returnsErrorOf none (listClient (ListRepositoriesForOrg_request a b p q))
        (ListRepositoriesForOrg listClient a b p q)
    ∧ returnsErrorOf none (GetV5ReposOwnerRepoHooks ctx (ListHooksCall.mk a b opts))
        (ListHooks GetV5ReposOwnerRepoHooks ctx a b opts)
    ∧ DeleteHook DeleteV5ReposOwnerRepoHooksId ctx a b id
        = DeleteV5ReposOwnerRepoHooksId ctx (DeleteHook_call a b id)
    ∧ returnsErrorOf none (hookClient (CreateHook_request a b c hook))
        (CreateHook hookClient a b c hook)
    ∧ returnsErrorOf zeroHook (PatchV5ReposOwnerRepoHooksId ctx (UpdateHook_call a b id hook))
        (UpdateHook zeroHook PatchV5ReposOwnerRepoHooksId ctx a b id hook)
    ∧ returnsErrorOf zeroBlob (GetV5ReposOwnerRepoGitBlobsSha ctx (GetContents_call a b c))
        (GetContents zeroBlob GetV5ReposOwnerRepoGitBlobsSha ctx a b c)
    ∧ returnsErrorOf zeroTree (GetV5ReposOwnerRepoGitTreesSha ctx (GetTrees_call a b c level))
        (GetTrees zeroTree GetV5ReposOwnerRepoGitTreesSha ctx a b c level)
    ∧ returnsErrorOf none (commitClient (GetSingleCommitOfProject_request a b c d))
        (GetSingleCommitOfProject commitClient ctx a b c d)
    ∧ returnsErrorOf none (tokenClient (RefreshAccessToken_request a))
        (RefreshAccessToken tokenClient a)
    ∧ returnsErrorOf none (compareClient (GetReposOwnerRepoCompareBaseHead_request a b c d e))
        (GetReposOwnerRepoCompareBaseHead compareClient a b c d e) := by
  refine ⟨?_, ?_, ?_, ?_, ?_, ?_, ?_, ?_, ?_, ?_, ?_⟩
  case refine_4 =>
    unfold DeleteHook
    cases DeleteV5ReposOwnerRepoHooksId ctx (DeleteHook_call a b id) <;> rfl
  all_goals
    apply returnsErrorOf_intro
    · intro r err h
      simp only [ListRepositoriesForAuthenticatedUser, ListRepositoriesForOrg, ListHooks,
        CreateHook, UpdateHook, GetContents, GetTrees, GetSingleCommitOfProject,
        RefreshAccessToken, GetReposOwnerRepoCompareBaseHead, h]
    · intro r h
      simp only [ListRepositoriesForAuthenticatedUser, ListRepositoriesForOrg, ListHooks,
        CreateHook, UpdateHook, GetContents, GetTrees, GetSingleCommitOfProject,
        RefreshAccessToken, GetReposOwnerRepoCompareBaseHead, h]

/-- C6 at concrete transports that answer with a result and the error `"404"`:
the listing returns the nil slice and `"404"`, `GetTrees` the zero tree and
`"404"`, `DeleteHook` returns `"404"`. -/
theorem operations_return_call_error_witness :
    ListRepositoriesForAuthenticatedUser
        (fun _ => (some [Project.mk 1 "zadig" "main"], some "404")) "tok" "kw" 1 20
        = (none, some "404")
    ∧ GetTrees "zero" (fun (_ : Unit) _ => ("half a tree", some "404")) () "o" "r" "master" 1
        = ("zero", some "404")
    ∧ DeleteHook (fun (_ : Unit) _ => some "404") () "o" "r" 5 = some "404"
    ∧ RefreshAccessToken (fun _ => (some "fresh", (none : Option String))) "rt"
        = (some "fresh", none) :=
  have h := operations_return_call_error "zero" "zero" "zero"
    (fun _ => (some [Project.mk 1 "zadig" "main"], some "404"))
    (fun _ => (some "hook", some "404")) (fun _ => (some "commit", some "404"))
    (fun _ => (some "fresh", (none : Option String))) (fun _ => (some "cmp", some "404"))
    (fun (_ : Unit) (_ : ListHooksCall Unit) => (some ["h"], some "404"))
    (fun (_ : Unit) _ => some "404") (fun (_ : Unit) _ => ("hook", some "404"))
    (fun (_ : Unit) _ => ("blob", some "404")) (fun (_ : Unit) _ => ("half a tree", some "404"))
    () "tok" "kw" "master" "d" "e" 1 20 5 1 () (GitHook.mk "u" "s")
  ⟨h.1.1 "404" rfl, h.2.2.2.2.2.2.2.1.1 "404" rfl, h.2.2.2.1,
    h.2.2.2.2.2.2.2.2.2.1.2 rfl⟩

/-! ## Narrowing to 32 bits -/

/-- C8: `GetTrees` passes the level itself as the `Recursive` option of the
generated git-data sub-API: for every level in the signed 32-bit range the
option is set to that level (1 for level 1, 0 for level 0, 2 for level 2, so
no normalisation to a boolean), and the option is set for every level. -/
theorem GetTrees_recursive_option (owner repo sha : String) (level : Int)
    (h : isInt32 level) :
    (GetTrees (GetTrees_call "" "" "" 0)
        (fun (_ : Unit) c => (c, (none : Option Unit))) () owner repo sha level).1
        = GetTrees_call owner repo sha level
    ∧ (GetTrees_call owner repo sha level).opts.Recursive = some level
    ∧ (GetTrees_call owner repo sha 1).opts.Recursive = some 1
    ∧ (GetTrees_call owner repo sha 0).opts.Recursive = some 0
    ∧ (GetTrees_call owner repo sha 2).opts.Recursive = some 2
    ∧ (∀ l : Int, (GetTrees_call owner repo sha l).opts.Recursive ≠ none) := by
  refine ⟨rfl, ?_, rfl, rfl, rfl, fun l => by simp [GetTrees_call]⟩
  simp only [GetTrees_call, (toInt32_eq_self_iff level).2 h]

/-- C8 at level 1 for `GetTrees(ctx, "koderover", "zadig", "master", 1)`. -/
theorem GetTrees_recursive_option_witness :
    isInt32 1 ∧ (GetTrees_call "koderover" "zadig" "master" 1).opts.Recursive = some 1 :=
  ⟨by decide, (GetTrees_recursive_option "koderover" "zadig" "master" 1 (by decide)).2.1⟩

/-- C9 as stated fails at level `2^32`, a value of Go's 64-bit `int`: the
level is nonzero and the `Recursive` value passed is 0. -/
theorem GetTrees_level_two_pow_32 :
    isInt64 4294967296
    ∧ ¬ ((GetTrees_call "koderover" "zadig" "master" 4294967296).opts.Recursive ≠ some 0
          ↔ (4294967296 : Int) ≠ 0) := by
  refine ⟨by decide, ?_⟩
  have h : (GetTrees_call "koderover" "zadig" "master" 4294967296).opts.Recursive = some 0 := by
    decide
  simp [h]

/-- C9 amended: for every level the `Recursive` option `GetTrees` passes to the
generated sub-API is set to `int32(level)`, the one value of the signed 32-bit
range congruent to the level modulo `2^32`; that value is nonzero exactly when
the level is not a multiple of `2^32`, and for a level in the signed 32-bit
range it is the level itself, nonzero exactly when the level is nonzero. -/
theorem GetTrees_recursive_nonzero_iff (owner repo sha : String) (level : Int) :
    (GetTrees (GetTrees_call "" "" "" 0)
        (fun (_ : Unit) c => (c, (none : Option Unit))) () owner repo sha level).1
        = GetTrees_call owner repo sha level
    ∧ (GetTrees_call owner repo sha level).opts.Recursive = some (toInt32 level)
    ∧ (∃ v : Int, (GetTrees_call owner repo sha level).opts.Recursive = some v
        ∧ isInt32 v
        ∧ (v - level) % 4294967296 = 0
        ∧ (∀ w : Int, isInt32 w → (w - level) % 4294967296 = 0 → w = v)
        ∧ (v ≠ 0 ↔ level % 4294967296 ≠ 0)
        ∧ (isInt32 level → v = level))
    ∧ ((GetTrees_call owner repo sha level).opts.Recursive ≠ some 0
        ↔ level % 4294967296 ≠ 0)
    ∧ (isInt32 level →
        ((GetTrees_call owner repo sha level).opts.Recursive ≠ some 0 ↔ level ≠ 0)) := by
  have h0 := toInt32_eq_zero_iff level
  have hr := toInt32_isInt32 level
  have hc := toInt32_congr level
  refine ⟨rfl, rfl, ⟨toInt32 level, rfl, hr, hc, ?_, ?_, ?_⟩, ?_, fun h => ?_⟩
  · intro w hw hwc
    unfold isInt32 at hw hr
    omega
  · simp only [ne_eq, h0]
  · exact fun h => (toInt32_eq_self_iff level).2 h
  · simp only [GetTrees_call, ne_eq, Option.some.injEq, h0]
  · simp only [GetTrees_call, ne_eq, Option.some.injEq, (toInt32_eq_self_iff level).2 h]

/-- C9 amended, at the levels 5, `2^32 + 5` and `2^31`: the values passed are
5, 5 and `-2^31`. -/
theorem GetTrees_recursive_nonzero_iff_witness :
    isInt32 5
    ∧ ((GetTrees_call "koderover" "zadig" "master" 5).opts.Recursive ≠ some 0 ↔ (5 : Int) ≠ 0)
    ∧ ((GetTrees_call "koderover" "zadig" "master" 4294967301).opts.Recursive ≠ some 0
        ↔ (4294967301 : Int) % 4294967296 ≠ 0)
    ∧ (GetTrees_call "koderover" "zadig" "master" 5).opts.Recursive = some 5
    ∧ (GetTrees_call "koderover" "zadig" "master" 4294967301).opts.Recursive = some 5
    ∧ (GetTrees_call "koderover" "zadig" "master" 2147483648).opts.Recursive
        = some (-2147483648) :=
  ⟨by decide,
    (GetTrees_recursive_nonzero_iff "koderover" "zadig" "master" 5).2.2.2.2 (by decide),
    (GetTrees_recursive_nonzero_iff "koderover" "zadig" "master" 4294967301).2.2.2.1,
    (GetTrees_recursive_nonzero_iff "koderover" "zadig" "master" 5).2.1.trans (by decide),
    (GetTrees_recursive_nonzero_iff "koderover" "zadig" "master" 4294967301).2.1.trans
      (by decide),
    (GetTrees_recursive_nonzero_iff "koderover" "zadig" "master" 2147483648).2.1.trans
      (by decide)⟩

/-- C10: `DeleteHook` and `UpdateHook` pass to the generated webhook sub-API
the id narrowed to 32 bits: a value of the signed 32-bit range congruent to the
caller's id modulo `2^32`.  It equals the caller's id exactly when that id is
in the signed 32-bit range, ids congruent modulo `2^32` give the same remote
call, and neither operation reports an error of its own: when the generated
call returns no error, none is returned. -/
theorem hook_id_narrowed {H E : Type} (owner repo : String) (hook : GitHook) (id : Int)
    (hid : isInt64 id) :
    DeleteHook (fun (_ : Unit) c => some c) () owner repo id
        = some (DeleteHook_call owner repo id)
    ∧ (UpdateHook (UpdateHook_call "" "" 0 (GitHook.mk "" ""))
        (fun (_ : Unit) c => (c, (none : Option Unit))) () owner repo id hook).1
        = UpdateHook_call owner repo id hook
    ∧ (UpdateHook_call owner repo id hook).id = (DeleteHook_call owner repo id).id
    ∧ isInt32 (DeleteHook_call owner repo id).id
    ∧ ((DeleteHook_call owner repo id).id - id) % 4294967296 = 0
    ∧ ((DeleteHook_call owner repo id).id = id ↔ isInt32 id)
    ∧ ((UpdateHook_call owner repo id hook).id = id ↔ isInt32 id)
    ∧ (∀ id2 : Int, isInt64 id2 → (id2 - id) % 4294967296 = 0 →
        DeleteHook_call owner repo id2 = DeleteHook_call owner repo id
        ∧ UpdateHook_call owner repo id2 hook = UpdateHook_call owner repo id hook)
    ∧ (∀ api : Unit → DeleteHookCall → Option E,
        api () (DeleteHook_call owner repo id) = none → DeleteHook api () owner repo id = none)
    ∧ (∀ (zeroHook : H) (api : Unit → PatchHookCall → H × Option E),
        (api () (UpdateHook_call owner repo id hook)).2 = none →
        (UpdateHook zeroHook api () owner repo id hook).2 = none) := by
  have _ := hid
  refine ⟨rfl, rfl, rfl, toInt32_isInt32 id, toInt32_congr id, toInt32_eq_self_iff id,
    toInt32_eq_self_iff id, ?_, ?_, ?_⟩
  · intro id2 _ hc
    simp only [DeleteHook_call, UpdateHook_call, toInt32_eq_of_congr id2 id hc, and_self]
  · intro api h
    simp only [DeleteHook, h]
  · intro zeroHook api h
    unfold UpdateHook
    cases hcall : api () (UpdateHook_call owner repo id hook) with
    | mk r err =>
      rw [hcall] at h
      simp only at h
      subst h
      rfl

/-- C10 at the ids `2^32 + 7` and `7`: both are valid `int64` values, the first
is outside the signed 32-bit range, and both give the same remote call, with
id 7. -/
theorem hook_id_narrowed_witness :
    isInt64 4294967303 ∧ isInt64 7 ∧ ¬ isInt32 4294967303
    ∧ ¬ ((DeleteHook_call "koderover" "zadig" 4294967303).id = 4294967303)
    ∧ DeleteHook_call "koderover" "zadig" 7 = DeleteHook_call "koderover" "zadig" 4294967303
    ∧ UpdateHook_call "koderover" "zadig" 7 (GitHook.mk "http://cb" "s")
        = UpdateHook_call "koderover" "zadig" 4294967303 (GitHook.mk "http://cb" "s") :=
  have h := @hook_id_narrowed Unit Unit "koderover" "zadig" (GitHook.mk "http://cb" "s")
    4294967303 (by decide)
  ⟨by decide, by decide, by decide,
    fun heq => absurd (h.2.2.2.2.2.1.1 heq) (by decide),
    (h.2.2.2.2.2.2.2.1 7 (by decide) (by decide)).1,
    (h.2.2.2.2.2.2.2.1 7 (by decide) (by decide)).2⟩

end Gitee
